import Mathlib

/-!
Verification of the ADS1100 ADC driver (klippy/extras, single file).

The development shallowly embeds the two components of the driver:

* `SoftwareI2C` — the bit-banged two-wire bus master.  Its `i2c_write`
  is modelled as the list of queued pin transitions (`update_digital_out`
  sends), and the byte-assembly loop of `i2c_read` is modelled as the
  list of bytes it returns.

* `MCU_ADS1100` — the acquisition engine.  Its mutable attributes become
  the fields of `EngineState`; `_handle_timer` becomes a pure step
  function returning the next state together with the side effects of
  the tick (shutdown invocation, callback invocation, next deadline).

Machine integers are modelled as `Nat`/`Int` (the signed 16-bit decode is
explicit), Python floats as `ℚ`, and timestamps as `ℚ`.
-/

namespace ADS1100

/-- Source line 13: `ADS1100_SAMPLE_RATE_TABLE = {8: 3, 16: 2, 32: 1, 128: 0}`. -/
def ADS1100_SAMPLE_RATE_TABLE (rate : ℕ) : Option ℕ :=
  if rate = 8 then some 3
  else if rate = 16 then some 2
  else if rate = 32 then some 1
  else if rate = 128 then some 0
  else none

/-- Source line 14: `ADS1100_MAXVALUE_BY_RATE_TABLE = {8: 32768, 16: 16384, 32: 8192, 128: 2048}`. -/
def ADS1100_MAXVALUE_BY_RATE_TABLE (rate : ℕ) : Option ℕ :=
  if rate = 8 then some 32768
  else if rate = 16 then some 16384
  else if rate = 32 then some 8192
  else if rate = 128 then some 2048
  else none

/-- Source line 15: `ADS1100_GAIN_TABLE = {1: 0, 2: 1, 4: 2, 8: 3}`. -/
def ADS1100_GAIN_TABLE (gain : ℤ) : Option ℕ :=
  if gain = 1 then some 0
  else if gain = 2 then some 1
  else if gain = 4 then some 2
  else if gain = 8 then some 3
  else none

/-! ## SoftwareI2C -/

/-- The two digital lines driven by `SoftwareI2C` (`scl_oid` and `sda_oid`). -/
inductive Pin
  | scl
  | sda
deriving DecidableEq

/-- One queued `update_digital_out` send: which pin, and the level written. -/
abbrev Ev := Pin × Bool

/-- Inner loop of `i2c_write` (source lines 66-73): transmit one data bit.
State carries `sda_last` and the transitions queued so far.  The data
line is only written when the next bit differs from `sda_last`; every
bit is framed by a clock-high then clock-low write. -/
def sendBit (st : Bool × List Ev) (b : Bool) : Bool × List Ev :=
  let sda_last := st.1
  let evs := st.2
  let evs := if sda_last ≠ b then evs ++ [(Pin.sda, b)] else evs
  let sda_last := if sda_last ≠ b then b else sda_last
  (sda_last, evs ++ [(Pin.scl, true), (Pin.scl, false)])

/-- Per-byte loop of `i2c_write` (source lines 64-76): the 8 data bits,
most-significant first (`data & (0x80 >> i)`), then one extra clock
pulse for the acknowledge bit. -/
def sendByte (st : Bool × List Ev) (data : ℕ) : Bool × List Ev :=
  let st := ((List.range 8).map (fun i => data.testBit (7 - i))).foldl sendBit st
  (st.1, st.2 ++ [(Pin.scl, true), (Pin.scl, false)])

/-- `SoftwareI2C.i2c_write` (source lines 56-81), as the queued transition
sequence.  `addr` is the 8-bit address byte `self.addr` (the configured
7-bit address already shifted left by one); the source prepends it to
`msg`.  Both lines idle high before the call.  The write starts with
`sda` low then `scl` low, transmits each byte, and finishes with the
stop sequence: `sda` driven low first when `sda_last` is high, then
`scl` high, then `sda` high. -/
def i2c_write (addr : ℕ) (msg : List ℕ) : List Ev :=
  let msg := addr :: msg
  let evs : List Ev := [(Pin.sda, false), (Pin.scl, false)]
  let st := msg.foldl sendByte (false, evs)
  let evs := if st.1 then st.2 ++ [(Pin.sda, false)] else st.2
  evs ++ [(Pin.scl, true), (Pin.sda, true)]

/-- Byte-assembly loop of `SoftwareI2C.i2c_read` (source lines 93-104), as
the list of bytes returned.  For each of the 8 bits of each byte the
source tests the `sda_value` argument (default `None`, never updated)
and sets bit `7 - i` when it is truthy; the sampled line level is never
consulted.  Hence the returned bytes depend only on `length` and on the
constant `sda_value`. -/
def i2c_read_data (length : ℕ) (sda_value : Bool) : List ℕ :=
  (List.range length).map (fun _ =>
    (List.range 8).foldl
      (fun data i => if sda_value then data ||| (1 <<< (7 - i)) else data) 0)

/-- Modelled from the spec: the byte a read should assemble — code missing
from `i2c_read`, whose in-line comment asks to sample the data line into
`sda_value` but never does.  Spec §4.1: "for each of 8 bits, pulses the
clock high, samples the data line value at that instant into the bit
(most-significant-bit first)".  `levels` lists the data-line levels at
the 8 clock-high instants. -/
def specReadByte (levels : List Bool) : ℕ :=
  (List.range 8).foldl
    (fun data i => if levels.getD i false then data ||| (1 <<< (7 - i)) else data) 0

/-- The clock-line levels written by a transition sequence, in order. -/
def sclSeq (tr : List Ev) : List Bool :=
  tr.filterMap (fun e => if e.1 = Pin.scl then some e.2 else none)

/-- `noRedundantSda lvl tr` holds when, starting from data-line level
`lvl`, every data-line write in `tr` changes the level. -/
def noRedundantSda : Bool → List Ev → Bool
  | _, [] => true
  | lvl, (Pin.scl, _) :: rest => noRedundantSda lvl rest
  | lvl, (Pin.sda, v) :: rest => (v != lvl) && noRedundantSda v rest

/-! ## MCU_ADS1100 acquisition engine -/

/-- The configuration attributes of `MCU_ADS1100` that `_handle_timer`
reads: `setup_minmax` fields (lines 183-189), the normalisation set by
`_build_config` (line 224), and the callback setup (lines 191-193). -/
structure Config where
  sample_count : ℕ
  sample_time : ℚ
  minval : ℚ
  maxval : ℚ
  range_check_count : ℕ
  norm : ℚ
  report_time : ℚ
  has_callback : Bool
deriving DecidableEq

/-- The mutable attributes of `MCU_ADS1100` that the timer ticks touch.
`value`/`state` are the running accumulator (`self._value`,
`self._state`); `last_value`/`last_time` the last reported result;
`error_count` the consecutive out-of-range cycle count;
`last_callback_time` gates the reporting callback. -/
structure EngineState where
  last_value : ℚ
  last_time : ℚ
  value : ℚ
  state : ℕ
  error_count : ℕ
  last_callback_time : ℚ
deriving DecidableEq

/-- `MCU_ADS1100.__init__` (source lines 136-140, 154): every field
starts at zero. -/
def initState : EngineState :=
  { last_value := 0, last_time := 0, value := 0, state := 0,
    error_count := 0, last_callback_time := 0 }

/-- `MCU_ADS1100.get_last_value` (source lines 200-201). -/
def get_last_value (st : EngineState) : ℚ × ℚ :=
  (st.last_value, st.last_time)

/-- `struct.unpack(">h", response[0:2])[0]` (source line 258): big-endian
signed 16-bit decode of the first two response bytes. -/
def decode_i16 (b0 b1 : ℕ) : ℤ :=
  let u := (b0 % 256) * 256 + b1 % 256
  if u < 32768 then (u : ℤ) else (u : ℤ) - 65536

/-- Range supervision step of `_handle_timer` (source lines 269-274),
applied once per completed cycle: returns the new `error_count` and
whether `invoke_shutdown("ADC out of range")` is called.  Out of range
increments the count and shuts down when the incremented count has
reached `range_check_count`; in range resets the count to zero. -/
def rangeCheck (cfg : Config) (error_count : ℕ) (last_value : ℚ) : ℕ × Bool :=
  if last_value < cfg.minval ∨ cfg.maxval < last_value then
    (error_count + 1, decide (error_count + 1 ≥ cfg.range_check_count))
  else
    (0, false)

/-- The outcome of one `_handle_timer` tick: the next engine state, whether
the fatal shutdown hook was invoked, the callback invocation (argument
pair `(receive time, calibrated value)`) when one fired, and the next
timer deadline returned. -/
structure TickOut where
  st : EngineState
  shutdown : Bool
  callback : Option (ℚ × ℚ)
  next : ℚ
deriving DecidableEq

/-- `MCU_ADS1100._handle_timer` (source lines 255-282) on an already
resolved 2-byte response: accumulate the decoded sample; if the
accumulator is still short of `sample_count`, reschedule; otherwise
record `value / sample_count / norm` with the receive time, reset the
accumulator, run the range check, and fire the callback when
`report_time` has elapsed since it last fired. -/
def handle_timer (cfg : Config) (st : EngineState) (eventtime : ℚ)
    (response : List ℕ) (receive_time : ℚ) : TickOut :=
  let d : ℚ := (decode_i16 (response.getD 0 0) (response.getD 1 0) : ℚ)
  let value := st.value + d
  let state := st.state + 1
  if state < cfg.sample_count then
    { st := { st with value := value, state := state },
      shutdown := false, callback := none, next := eventtime + cfg.sample_time }
  else
    let last_value := value / (cfg.sample_count : ℚ) / cfg.norm
    let rc := rangeCheck cfg st.error_count last_value
    let fire := cfg.has_callback &&
      decide (st.last_callback_time + cfg.report_time ≤ eventtime)
    { st := { last_value := last_value, last_time := receive_time,
              value := 0, state := 0, error_count := rc.1,
              last_callback_time :=
                if fire then eventtime else st.last_callback_time },
      shutdown := rc.2,
      callback := if fire then some (receive_time, last_value) else none,
      next := eventtime + cfg.sample_time }

/-- `MCU_ADS1100._read_response` (source lines 239-253) over the sequence
of responses the bus returns on successive attempts: skip every
response shorter than 2 bytes and return the first adequate one with
its receive time (`none` when no attempt ever succeeds — the source
loops forever in that case). -/
def read_response : List (List ℕ × ℚ) → Option (List ℕ × ℚ)
  | [] => none
  | (response, rt) :: rest =>
      if response.length < 2 then read_response rest else some (response, rt)

/-- One `_handle_timer` tick starting from the raw attempt sequence of the
underlying read (lines 255-257): resolve the response via
`read_response`, then run the tick on it. -/
def handle_timer_from (cfg : Config) (st : EngineState) (eventtime : ℚ)
    (attempts : List (List ℕ × ℚ)) : Option TickOut :=
  (read_response attempts).map fun r => handle_timer cfg st eventtime r.1 r.2

/-- Inputs of one tick: the reactor event time and the (already adequate)
response with its receive time. -/
structure TickIn where
  eventtime : ℚ
  response : List ℕ
  receive_time : ℚ

/-- Run `_handle_timer` over a list of ticks, threading the engine state. -/
def runTicks (cfg : Config) (st : EngineState) : List TickIn → EngineState
  | [] => st
  | t :: ts =>
      runTicks cfg (handle_timer cfg st t.eventtime t.response t.receive_time).st ts

/-- The signed sample a tick accumulates. -/
def decodeIn (t : TickIn) : ℤ :=
  decode_i16 (t.response.getD 0 0) (t.response.getD 1 0)

/-- Run the range supervision of lines 269-274 over a sequence of completed
cycle values, starting from a given `error_count`: returns the final
`error_count` and how many times the shutdown hook was invoked. -/
def runCycles (cfg : Config) (ec : ℕ) : List ℚ → ℕ × ℕ
  | [] => (ec, 0)
  | v :: vs =>
      let rc := rangeCheck cfg ec v
      let rest := runCycles cfg rc.1 vs
      (rest.1, (if rc.2 then 1 else 0) + rest.2)

/-- `MCU_ADS1100._build_config` (source lines 203-224): when
`sample_count` is zero the method returns without configuring
(`none`); otherwise it picks the conversion rate by midpoint banding on
`1 / sample_time`, recomputes `sample_time = 1 / rate`, and takes the
normalisation constant from the rate table.  Returns
`(rate, sample_time, norm)`. -/
def build_config (sample_count : ℕ) (sample_time : ℚ) : Option (ℕ × ℚ × ℚ) :=
  if sample_count = 0 then none
  else
    let rate : ℚ := 1 / sample_time
    let rate : ℕ :=
      if rate < (8 + 16) / 2 then 8
      else if rate < (16 + 32) / 2 then 16
      else if rate < (32 + 128) / 2 then 32
      else 128
    some (rate, 1 / (rate : ℚ), ((ADS1100_MAXVALUE_BY_RATE_TABLE rate).getD 0 : ℚ))

/-- Gain validation in `MCU_ADS1100.__init__` (source lines 128-131):
`config.getint("gain", 1, minval=1)` rejects values below 1 with a
configuration error, and a gain outside `ADS1100_GAIN_TABLE` raises
`config_error("ADS1100 does not support the selected gain: %d" % gain)`.
Both failure messages carry the offending gain; the model returns it as
the error payload.  Success returns the gain-select code. -/
def configure_gain (gain : ℤ) : Except ℤ ℕ :=
  if gain < 1 then Except.error gain
  else
    match ADS1100_GAIN_TABLE gain with
    | some code => Except.ok code
    | none => Except.error gain

/-- `MCU_ADS1100._handle_ready` (source line 230): the configuration
register byte `rate_code << 2 | gain_code`, for supported rate and
gain. -/
def encode_config (rate : ℕ) (gain : ℤ) : Option ℕ :=
  match ADS1100_SAMPLE_RATE_TABLE rate, ADS1100_GAIN_TABLE gain with
  | some rc, some gc => some (rc <<< 2 ||| gc)
  | _, _ => none

/-- Decode the rate back from a configuration byte through
`ADS1100_SAMPLE_RATE_TABLE`: the supported rate whose code equals bits
2-3 of the byte. -/
def decode_rate (b : ℕ) : Option ℕ :=
  [8, 16, 32, 128].find? fun r =>
    ADS1100_SAMPLE_RATE_TABLE r = some ((b >>> 2) &&& 3)

/-- Decode the gain back from a configuration byte through
`ADS1100_GAIN_TABLE`: the supported gain whose code equals bits 0-1 of
the byte. -/
def decode_gain (b : ℕ) : Option ℤ :=
  [1, 2, 4, 8].find? fun g => ADS1100_GAIN_TABLE g = some (b &&& 3)

/-- Whether a calibrated value violates the configured bounds (source
line 269: `self._last_value < self._minval or self._last_value > self._maxval`). -/
def outOfRange (cfg : Config) (v : ℚ) : Prop :=
  v < cfg.minval ∨ cfg.maxval < v

instance (cfg : Config) (v : ℚ) : Decidable (outOfRange cfg v) := by
  unfold outOfRange; infer_instance

/-- Default tick used by `List.getLastD` below; never the value actually
returned, since every use is on a non-empty list. -/
def dummyTick : TickIn :=
  { eventtime := 0, response := [], receive_time := 0 }

/-- A concrete engine configuration for the concrete instantiations below:
two samples per cycle, rate-32 normalisation table entry would be 8192
but the exact value is irrelevant here, bounds `[-1, 1]`,
`range_check_count = 2`. -/
def cfgA : Config :=
  { sample_count := 2, sample_time := 1/32, minval := -1, maxval := 1,
    range_check_count := 2, norm := 2048, report_time := 1/2,
    has_callback := false }

/-- A concrete engine configuration with `range_check_count = 0` and one
sample per cycle. -/
def cfgZ : Config :=
  { sample_count := 1, sample_time := 1/32, minval := -1, maxval := 1,
    range_check_count := 0, norm := 2048, report_time := 1/2,
    has_callback := false }

/-! ## Theorems -/

/-- `List.getLastD` does not depend on the default on a non-empty list. -/
theorem getLastD_congr (l : List TickIn) (a b : TickIn) (h : l ≠ []) :
    l.getLastD a = l.getLastD b := by
  cases l with
  | nil => exact absurd rfl h
  | cons x xs => simp [List.getLastD_eq_getLast?, List.getLast?_cons]

/-- Completing run: starting with `ts.length` ticks left in the cycle, the
run records the average of the accumulated value and resets the
accumulator. -/
theorem runTicks_complete (cfg : Config) :
    ∀ (ts : List TickIn) (st : EngineState), ts ≠ [] →
      st.state + ts.length = cfg.sample_count →
      (runTicks cfg st ts).last_value =
          (st.value + (((ts.map decodeIn).sum : ℤ) : ℚ)) /
            (cfg.sample_count : ℚ) / cfg.norm ∧
      (runTicks cfg st ts).last_time = (ts.getLastD dummyTick).receive_time ∧
      (runTicks cfg st ts).state = 0 ∧
      (runTicks cfg st ts).value = 0 := by
  intro ts
  induction ts with
  | nil => intro st h _; exact absurd rfl h
  | cons tk ts ih =>
    intro st _ hlen
    rcases eq_or_ne ts [] with hts | hts
    · subst hts
      have hc : ¬ (st.state + 1 < cfg.sample_count) := by
        simp only [List.length_cons, List.length_nil] at hlen; omega
      simp [runTicks, handle_timer, hc, decodeIn, List.getLastD]
    · have hpos : 0 < ts.length := List.length_pos.mpr hts
      have hc : st.state + 1 < cfg.sample_count := by
        simp only [List.length_cons] at hlen; omega
      have hstep : (handle_timer cfg st tk.eventtime tk.response tk.receive_time).st
          = { st with value := st.value + ((decodeIn tk : ℤ) : ℚ),
                      state := st.state + 1 } := by
        simp [handle_timer, hc, decodeIn]
      have hlen' : st.state + 1 + ts.length = cfg.sample_count := by
        simp only [List.length_cons] at hlen; omega
      obtain ⟨h1, h2, h3, h4⟩ :=
        ih { st with value := st.value + ((decodeIn tk : ℤ) : ℚ),
                     state := st.state + 1 } hts hlen'
      have hrw : runTicks cfg st (tk :: ts)
          = runTicks cfg
              { st with value := st.value + ((decodeIn tk : ℤ) : ℚ),
                        state := st.state + 1 } ts := by
        simp only [runTicks, hstep]
      refine ⟨?_, ?_, ?_, ?_⟩
      · rw [hrw, h1]
        have : ((((tk :: ts).map decodeIn).sum : ℤ) : ℚ)
            = ((decodeIn tk : ℤ) : ℚ) + (((ts.map decodeIn).sum : ℤ) : ℚ) := by
          push_cast [List.map_cons, List.sum_cons]
          ring
        rw [this]
        ring_nf
      · rw [hrw, h2, List.getLastD_cons, getLastD_congr ts tk dummyTick hts]
      · rw [hrw]; exact h3
      · rw [hrw]; exact h4

/-- Claim C6: for a software-bus write of address byte `0xA0` with payload
`[0x03]`, the queued transition sequence begins with the start condition
(data driven low — while the clock still idles high — then clock driven
low); the clock-line writes are exactly that initial low, then 9
high-low pulses per transmitted byte (8 data bits plus the acknowledge,
2 bytes here), then the single final high of the stop condition; the
sequence ends with the stop condition (clock released high, then data
released high); and no data-line write repeats the level the line
already has (starting from its idle-high level). -/
theorem C6_write_framing :
    (i2c_write 0xA0 [0x03]).take 2 = [(Pin.sda, false), (Pin.scl, false)] ∧
    sclSeq (i2c_write 0xA0 [0x03]) =
      false :: (List.replicate (9 * 2) [true, false]).flatten ++ [true] ∧
    (i2c_write 0xA0 [0x03]).reverse.take 2 = [(Pin.sda, true), (Pin.scl, true)] ∧
    noRedundantSda true (i2c_write 0xA0 [0x03]) = true := by
  decide

/-- Claim C2: refuted by the source — the byte-assembly loop of `i2c_read`
never samples the data line; it tests the constant `sda_value` argument
(default `None`), so every returned byte is `0x00` (or `0xFF` when the
argument is truthy) regardless of the levels on the line, while the
behaviour asked for by the in-line comment and the spec (`specReadByte`)
packs the 8 sampled levels most-significant-bit first, e.g. `0xAA` for
alternating levels. -/
theorem C2_read_ignores_line :
    i2c_read_data 1 false = [0x00] ∧
    i2c_read_data 1 true = [0xFF] ∧
    i2c_read_data 2 false = [0x00, 0x00] ∧
    specReadByte [true, false, true, false, true, false, true, false] = 0xAA ∧
    (0xAA : ℕ) ≠ 0x00 ∧ (0xAA : ℕ) ≠ 0xFF := by
  decide

/-- Claim C8: gains 1, 2, 4, 8 are accepted with gain-select codes 0, 1,
2, 3; every other integer gain is rejected with a configuration error
carrying the offending gain. -/
theorem C8_gain_validation (g : ℤ) :
    (g = 1 → configure_gain g = Except.ok 0) ∧
    (g = 2 → configure_gain g = Except.ok 1) ∧
    (g = 4 → configure_gain g = Except.ok 2) ∧
    (g = 8 → configure_gain g = Except.ok 3) ∧
    (g ≠ 1 → g ≠ 2 → g ≠ 4 → g ≠ 8 → configure_gain g = Except.error g) := by
  refine ⟨?_, ?_, ?_, ?_, ?_⟩
  · rintro rfl; rfl
  · rintro rfl; rfl
  · rintro rfl; rfl
  · rintro rfl; rfl
  · intro h1 h2 h4 h8
    by_cases hg : g < 1 <;>
      simp [configure_gain, ADS1100_GAIN_TABLE, hg, h1, h2, h4, h8]

/-- Witness for C8 at gains 1 and 3. -/
theorem C8_gain_validation_witness :
    configure_gain 1 = Except.ok 0 ∧ configure_gain 3 = Except.error 3 :=
  ⟨(C8_gain_validation 1).1 rfl,
   (C8_gain_validation 3).2.2.2.2 (by decide) (by decide) (by decide) (by decide)⟩

/-- Claim C9: for every supported rate and gain, the configuration byte
`rate_code << 2 | gain_code` decodes back through the two tables to the
original rate and gain, and the encoding is injective over the 16
supported pairs. -/
theorem C9_config_roundtrip (rate : ℕ) (gain : ℤ)
    (hr : rate ∈ [8, 16, 32, 128]) (hg : gain ∈ ([1, 2, 4, 8] : List ℤ)) :
    (encode_config rate gain).bind decode_rate = some rate ∧
    (encode_config rate gain).bind decode_gain = some gain ∧
    (∀ r2 ∈ [8, 16, 32, 128], ∀ g2 ∈ ([1, 2, 4, 8] : List ℤ),
      encode_config rate gain = encode_config r2 g2 → rate = r2 ∧ gain = g2) := by
  fin_cases hr <;> fin_cases hg <;>
    refine ⟨by decide, by decide, ?_⟩ <;>
    · intro r2 hr2 g2 hg2 heq
      fin_cases hr2 <;> fin_cases hg2 <;> revert heq <;> decide

/-- Witness for C9 at rate 32, gain 4. -/
theorem C9_config_roundtrip_witness :
    (encode_config 32 4).bind decode_rate = some 32 ∧
    (encode_config 32 4).bind decode_gain = some 4 :=
  ⟨(C9_config_roundtrip 32 4 (by decide) (by decide)).1,
   (C9_config_roundtrip 32 4 (by decide) (by decide)).2.1⟩

/-- Claim C3: for a positive requested sample time (and a non-zero sample
count, without which `_build_config` returns early), the configured rate
is 8, 16, 32 or 128 according to which midpoint band `1 / sample_time`
falls into; the corrected sample time is exactly `1 / rate` and the
normalisation constant is the table entry of the chosen rate. -/
theorem C3_rate_selection (sc : ℕ) (t : ℚ) (hsc : 0 < sc) (ht : 0 < t) :
    (1 / t < (8 + 16) / 2 →
      build_config sc t = some (8, 1 / 8, 32768)) ∧
    ((8 + 16) / 2 ≤ 1 / t → 1 / t < (16 + 32) / 2 →
      build_config sc t = some (16, 1 / 16, 16384)) ∧
    ((16 + 32) / 2 ≤ 1 / t → 1 / t < (32 + 128) / 2 →
      build_config sc t = some (32, 1 / 32, 8192)) ∧
    ((32 + 128) / 2 ≤ 1 / t →
      build_config sc t = some (128, 1 / 128, 2048)) := by
  have hsc0 : ¬ sc = 0 := by omega
  refine ⟨fun h1 => ?_, fun h1 h2 => ?_, fun h1 h2 => ?_, fun h1 => ?_⟩ <;>
    · simp only [build_config, if_neg hsc0]
      split_ifs with a b c <;>
        first
          | (exfalso; linarith)
          | norm_num [ADS1100_MAXVALUE_BY_RATE_TABLE]

/-- Witness for C3: requesting 0.04 s yields rate 32 and sample time
1/32 = 0.03125 with normalisation 8192. -/
theorem C3_rate_selection_witness :
    build_config 15 (4 / 100 : ℚ) = some (32, 1 / 32, 8192) :=
  (C3_rate_selection 15 (4 / 100) (by norm_num) (by norm_num)).2.2.1
    (by norm_num) (by norm_num)

/-- Claim C10: on the freshly constructed engine `get_last_value` returns
`(0.0, 0)`, and a tick that does not complete a cycle changes only the
accumulator — the new state is the old one with the decoded sample added
to `value` and `state` incremented, so `last_value`, `last_time`,
`error_count` and `last_callback_time` are untouched, no shutdown is
invoked and no callback fires. -/
theorem C10_initial_and_frame (cfg : Config) (st : EngineState)
    (t rt : ℚ) (response : List ℕ) (h : st.state + 1 < cfg.sample_count) :
    get_last_value initState = (0, 0) ∧
    (handle_timer cfg st t response rt).st =
      { st with
          value := st.value +
            ((decode_i16 (response.getD 0 0) (response.getD 1 0) : ℤ) : ℚ),
          state := st.state + 1 } ∧
    (handle_timer cfg st t response rt).st.last_value = st.last_value ∧
    (handle_timer cfg st t response rt).st.last_time = st.last_time ∧
    (handle_timer cfg st t response rt).st.error_count = st.error_count ∧
    (handle_timer cfg st t response rt).st.last_callback_time
      = st.last_callback_time ∧
    (handle_timer cfg st t response rt).shutdown = false ∧
    (handle_timer cfg st t response rt).callback = none := by
  refine ⟨rfl, ?_, ?_, ?_, ?_, ?_, ?_, ?_⟩ <;>
    simp [handle_timer, h]

/-- Witness for C10 with a 2-sample configuration and response bytes
`[0, 1]`. -/
theorem C10_initial_and_frame_witness :
    (handle_timer cfgA initState 0 [0, 1] 0).st =
      { initState with value := 1, state := 1 } ∧
    (handle_timer cfgA initState 0 [0, 1] 0).shutdown = false := by
  have h := C10_initial_and_frame cfgA initState 0 0 [0, 1]
    (by norm_num [initState, cfgA])
  refine ⟨?_, h.2.2.2.2.2.2.1⟩
  rw [h.2.1]
  norm_num [decode_i16, initState]

/-- Claim C7: when the first read attempt yields fewer than 2 bytes and
the next attempt yields 2 bytes, `_read_response` skips the short
response and hands the 2-byte one to the tick, so the tick behaves
exactly as if the short response had never happened — one sample decoded
from the second response is accumulated, and `error_count` (like every
other field) is unaffected by the retry. -/
theorem C7_transient_retry (cfg : Config) (st : EngineState) (t : ℚ)
    (r1 r2 : List ℕ) (rt1 rt2 : ℚ) (h1 : r1.length < 2) (h2 : r2.length = 2) :
    read_response [(r1, rt1), (r2, rt2)] = some (r2, rt2) ∧
    handle_timer_from cfg st t [(r1, rt1), (r2, rt2)] =
      handle_timer_from cfg st t [(r2, rt2)] ∧
    handle_timer_from cfg st t [(r2, rt2)] =
      some (handle_timer cfg st t r2 rt2) := by
  have hr : read_response [(r1, rt1), (r2, rt2)] = some (r2, rt2) := by
    simp [read_response, h1, h2]
  have hr2 : read_response [(r2, rt2)] = some (r2, rt2) := by
    simp [read_response, h2]
  exact ⟨hr, by simp [handle_timer_from, hr, hr2], by simp [handle_timer_from, hr2]⟩

/-- Witness for C7: a 1-byte response `[5]` followed by `[0, 1]`. -/
theorem C7_transient_retry_witness :
    handle_timer_from cfgA initState 0 [([5], 1), ([0, 1], 2)] =
      some (handle_timer cfgA initState 0 [0, 1] 2) := by
  have h := C7_transient_retry cfgA initState 0 [5] [0, 1] 1 2 (by norm_num) rfl
  rw [h.2.1, h.2.2]

/-- Claim C4: starting a cycle with an empty accumulator, after
`sample_count = N` ticks whose 2-byte responses decode to
`r_1, ..., r_N`, the recorded calibrated value is
`(r_1 + ... + r_N) / N / norm`, the recorded timestamp is the receive
time of the N-th read, and the accumulator is reset to zero. -/
theorem C4_accumulation (cfg : Config) (st : EngineState) (ts : List TickIn)
    (hN : 0 < cfg.sample_count) (hlen : ts.length = cfg.sample_count)
    (hstate : st.state = 0) (hvalue : st.value = 0) :
    (runTicks cfg st ts).last_value =
        (((ts.map decodeIn).sum : ℤ) : ℚ) / (cfg.sample_count : ℚ) / cfg.norm ∧
    (runTicks cfg st ts).last_time = (ts.getLastD dummyTick).receive_time ∧
    (runTicks cfg st ts).state = 0 ∧
    (runTicks cfg st ts).value = 0 := by
  have hne : ts ≠ [] := by
    intro h; subst h
    simp only [List.length_nil] at hlen
    omega
  have h := runTicks_complete cfg ts st hne (by omega)
  simpa [hstate, hvalue] using h

/-- Witness for C4: two samples decoding to 1 and 2 give calibrated value
`3 / 2 / 2048` with the second receive time 7. -/
theorem C4_accumulation_witness :
    (runTicks cfgA initState [⟨0, [0, 1], 3⟩, ⟨1, [0, 2], 7⟩]).last_value
        = 3 / 2 / 2048 ∧
    (runTicks cfgA initState [⟨0, [0, 1], 3⟩, ⟨1, [0, 2], 7⟩]).last_time = 7 ∧
    (runTicks cfgA initState [⟨0, [0, 1], 3⟩, ⟨1, [0, 2], 7⟩]).state = 0 ∧
    (runTicks cfgA initState [⟨0, [0, 1], 3⟩, ⟨1, [0, 2], 7⟩]).value = 0 := by
  have h := C4_accumulation cfgA initState [⟨0, [0, 1], 3⟩, ⟨1, [0, 2], 7⟩]
    (by norm_num [cfgA]) (by norm_num [cfgA]) rfl rfl
  refine ⟨?_, ?_, h.2.2.1, h.2.2.2⟩
  · rw [h.1]
    norm_num [decodeIn, decode_i16, cfgA]
  · rw [h.2.1]
    norm_num [dummyTick]

/-- While the running error count stays below `range_check_count`, a run of
out-of-range cycles just counts up and never invokes the shutdown. -/
theorem runCycles_below (cfg : Config) :
    ∀ (vs : List ℚ) (ec : ℕ), (∀ v ∈ vs, outOfRange cfg v) →
      ec + vs.length < cfg.range_check_count →
      runCycles cfg ec vs = (ec + vs.length, 0) := by
  intro vs
  induction vs with
  | nil => intro ec _ _; simp [runCycles]
  | cons v vs ih =>
    intro ec hall hlt
    have hv : v < cfg.minval ∨ cfg.maxval < v := hall v (by simp)
    have hK : ¬ (ec + 1 ≥ cfg.range_check_count) := by
      simp only [List.length_cons] at hlt; omega
    have hrc : rangeCheck cfg ec v = (ec + 1, false) := by
      simp only [rangeCheck, if_pos hv, decide_eq_false hK]
    have hrest := ih (ec + 1) (fun w hw => hall w (List.mem_cons_of_mem v hw))
      (by simp only [List.length_cons] at hlt ⊢; omega)
    simp only [runCycles, hrc, hrest, List.length_cons, Bool.false_eq_true,
      if_false, Prod.mk.injEq]
    exact ⟨by omega, trivial⟩

/-- A fresh run of out-of-range cycles that exactly exhausts the remaining
budget invokes the shutdown exactly once, on its last cycle. -/
theorem runCycles_hit (cfg : Config) :
    ∀ (vs : List ℚ) (ec : ℕ), (∀ v ∈ vs, outOfRange cfg v) →
      ec + vs.length = cfg.range_check_count → ec < cfg.range_check_count →
      (runCycles cfg ec vs).2 = 1 := by
  intro vs
  induction vs with
  | nil =>
    intro ec _ heq hlt
    simp only [List.length_nil] at heq
    omega
  | cons v vs ih =>
    intro ec hall heq hlt
    have hv : v < cfg.minval ∨ cfg.maxval < v := hall v (by simp)
    rcases eq_or_ne vs [] with hvs | hvs
    · subst hvs
      have hK : ec + 1 ≥ cfg.range_check_count := by
        simp only [List.length_cons, List.length_nil] at heq; omega
      simp [runCycles, rangeCheck, hv, hK]
    · have hpos : 0 < vs.length := List.length_pos.mpr hvs
      have hK : ¬ (ec + 1 ≥ cfg.range_check_count) := by
        simp only [List.length_cons] at heq; omega
      have hrc : rangeCheck cfg ec v = (ec + 1, false) := by
        simp only [rangeCheck, if_pos hv, decide_eq_false hK]
      have hrest := ih (ec + 1) (fun w hw => hall w (List.mem_cons_of_mem v hw))
        (by simp only [List.length_cons] at heq; omega) (by omega)
      simp only [runCycles, hrc, Bool.false_eq_true, if_false, hrest]

/-- Claim C5: with `range_check_count = K > 0`, a fresh run of exactly K
consecutive out-of-range completed cycles invokes the shutdown exactly
once (no shutdown happens on any proper prefix, so the single
invocation is at the K-th cycle), and an in-range cycle resets
`error_count` to 0 without invoking the shutdown. -/
theorem C5_escalation (cfg : Config) (vals : List ℚ)
    (hK : 0 < cfg.range_check_count)
    (hlen : vals.length = cfg.range_check_count)
    (hall : ∀ v ∈ vals, outOfRange cfg v) :
    (runCycles cfg 0 vals).2 = 1 ∧
    (∀ n < cfg.range_check_count, (runCycles cfg 0 (vals.take n)).2 = 0) ∧
    (∀ ec v, ¬ outOfRange cfg v → rangeCheck cfg ec v = (0, false)) := by
  refine ⟨runCycles_hit cfg vals 0 hall (by omega) hK, ?_, ?_⟩
  · intro n hn
    have h := runCycles_below cfg (vals.take n) 0
      (fun w hw => hall w (List.mem_of_mem_take hw))
      (by simp only [List.length_take]; omega)
    simp [h]
  · intro ec v hv
    have hv' : ¬ (v < cfg.minval ∨ cfg.maxval < v) := hv
    simp [rangeCheck, hv']

/-- Witness for C5: bounds `[-1, 1]`, `range_check_count = 2`, two
consecutive cycles at calibrated value 2. -/
theorem C5_escalation_witness :
    (runCycles cfgA 0 [(2 : ℚ), 2]).2 = 1 ∧
    (runCycles cfgA 0 ([(2 : ℚ), 2].take 1)).2 = 0 := by
  have hall : ∀ v ∈ [(2 : ℚ), 2], outOfRange cfgA v := by
    intro v hv
    simp only [List.mem_cons, List.not_mem_nil, or_false] at hv
    rcases hv with rfl | rfl <;> exact Or.inr (by norm_num [cfgA])
  have h := C5_escalation cfgA [(2 : ℚ), 2] (by decide) rfl hall
  exact ⟨h.1, h.2.1 1 (by decide)⟩

/-- Claim C1 is refuted on the code: with `range_check_count = 0` the test
`error_count >= range_check_count` is already true on the first
out-of-range completed cycle, so the engine invokes the fatal shutdown
even though `range_check_count` is 0 — here a single tick that completes
a cycle at calibrated value `32767 / 2048 > 1`. -/
theorem C1_counterexample :
    cfgZ.range_check_count = 0 ∧
    (handle_timer cfgZ initState 0 [0x7F, 0xFF] 0).shutdown = true := by
  refine ⟨rfl, ?_⟩
  norm_num [handle_timer, cfgZ, initState, rangeCheck, decode_i16]

/-- Claim C1, amended: setting `range_check_count` to 0 does not disable
range supervision — with it the incremented error count always reaches
the threshold, so over any sequence of completed cycles, from any
starting error count, the shutdown hook is invoked exactly once per
out-of-range cycle. -/
theorem C1_zero_check_count (cfg : Config)
    (hK : cfg.range_check_count = 0) (vals : List ℚ) (ec : ℕ) :
    (runCycles cfg ec vals).2 =
      vals.countP (fun v => decide (outOfRange cfg v)) := by
  induction vals generalizing ec with
  | nil => simp [runCycles]
  | cons v vs ih =>
    by_cases hv : outOfRange cfg v
    · have hv' : v < cfg.minval ∨ cfg.maxval < v := hv
      have hK' : ec + 1 ≥ cfg.range_check_count := by omega
      simp only [runCycles, rangeCheck, if_pos hv', decide_eq_true hK',
        if_true, ih, List.countP_cons, hv]
      simp
      omega
    · have hv' : ¬ (v < cfg.minval ∨ cfg.maxval < v) := hv
      simp only [runCycles, rangeCheck, if_neg hv', Bool.false_eq_true,
        if_false, ih, List.countP_cons]
      simp [hv]

/-- Witness for the amended C1: three cycles, two of them out of range,
give exactly two shutdown invocations under `range_check_count = 0`. -/
theorem C1_zero_check_count_witness :
    (runCycles cfgZ 0 [(2 : ℚ), 0, 2]).2 = 2 := by
  rw [C1_zero_check_count cfgZ rfl [(2 : ℚ), 0, 2] 0]
  norm_num [List.countP_cons, outOfRange, cfgZ]

end ADS1100
